import Mathlib

/-!
Verification of the godoo Odoo XML-RPC client library.

This file gives a shallow embedding, in Lean 4, of the parts of the godoo
Go library that its specification talks about: the error classifier
(errors.go), the session manager and call executor (client.go / crud.go),
the batched update fan-out, and the domain conversion (types.go).
External effects (the wire transport, the context, the wall clock) are
modelled by an explicit oracle record `Env` whose fields give the outcome
of each external interaction; pure Go functions become pure Lean
functions.  Machine integers (int64, time.Duration) are modelled by `Int`;
Go `error` values by the inductive `GoError`; Go nil-able slices by
`Option (List _)` (with `none` for a nil slice).
-/

set_option autoImplicit false

namespace Godoo

/-! ## Go error values

A Go `error` is modelled by an inductive capturing exactly the error
shapes this library builds: sentinel errors created by `errors.New`
(identified by their message), single wrapping via `fmt.Errorf` with one
`%w` verb, double wrapping via `fmt.Errorf` with two `%w` verbs, and the
`OdooRPCError` struct (with a non-nil or nil `OriginalError` field).
The `msg` argument of the wrap constructors is the full formatted message
produced by `fmt.Errorf`.
-/

inductive GoError where
  | base (msg : String)
  | wrap (msg : String) (inner : GoError)
  | wrap2 (msg : String) (innerA : GoError) (innerB : GoError)
  | odooRPC (orig : GoError) (code : Int) (msg : String)
  | odooRPCNil (code : Int) (msg : String)
deriving DecidableEq

/-- Message of the sentinel `ErrOdooRPC`, used by `OdooRPCError.Error`. -/
def errOdooRPCMsg : String := "godoo: Odoo XML-RPC call failed"

/-- The `Error()` method: the printed message of a Go error value.
For `OdooRPCError` this follows its `Error` implementation in errors.go:
with a non-nil original error it prints
`"<ErrOdooRPC>: <Message> (original: <OriginalError>)"`, otherwise
`"<ErrOdooRPC>: <Message>"`. -/
def errString : GoError → String
  | .base m => m
  | .wrap m _ => m
  | .wrap2 m _ _ => m
  | .odooRPC orig _ m => errOdooRPCMsg ++ ": " ++ m ++ " (original: " ++ errString orig ++ ")"
  | .odooRPCNil _ m => errOdooRPCMsg ++ ": " ++ m

/-- The semantics of `errors.Is`: the target is found either by equality
or by walking the `Unwrap` tree (a `fmt.Errorf` with two `%w` verbs
unwraps to both wrapped errors; `OdooRPCError.Unwrap` returns its
`OriginalError`). -/
def errorsIs (e target : GoError) : Bool :=
  if e = target then true
  else
    match e with
    | .base _ => false
    | .wrap _ inner => errorsIs inner target
    | .wrap2 _ a b => errorsIs a target || errorsIs b target
    | .odooRPC orig _ _ => errorsIs orig target
    | .odooRPCNil _ _ => false

/-! Sentinel errors from errors.go. -/

/-- `ErrAuthenticationFailed = errors.New("godoo: authentication failed")` -/
def ErrAuthenticationFailed : GoError := .base "godoo: authentication failed"

/-- `ErrRecordNotFound` sentinel. -/
def ErrRecordNotFound : GoError := .base "godoo: no record found for the given criteria"

/-- `ErrInvalidModel = errors.New("godoo: invalid Odoo model")` -/
def ErrInvalidModel : GoError := .base "godoo: invalid Odoo model"

/-- `ErrInvalidMethod = errors.New("godoo: invalid Odoo method for the model")` -/
def ErrInvalidMethod : GoError := .base "godoo: invalid Odoo method for the model"

/-- `ErrOdooRPC` sentinel. -/
def ErrOdooRPC : GoError := .base errOdooRPCMsg

/-- `ErrInvalidResponse` sentinel. -/
def ErrInvalidResponse : GoError := .base "invalid Odoo RPC response"

/-! ## String machinery

`strings.Contains`, `strings.HasPrefix` / `TrimPrefix`, and the one
regular expression used by the classifier, implemented over `List Char`.
-/

/-- The single-quote character, written by code point to keep sources plain. -/
def quoteChar : Char := Char.ofNat 39

/-- The newline character (a Go regexp `.` does not match it). -/
def nlChar : Char := Char.ofNat 10

/-- Does the second list start with the first one? -/
def startsWithL : List Char → List Char → Bool
  | [], _ => true
  | _ :: _, [] => false
  | a :: as, b :: bs => a = b && startsWithL as bs

/-- `strings.Contains` over char lists: some suffix of `hay` starts with
`needle`. -/
def containsSubL (hay needle : List Char) : Bool :=
  match hay with
  | [] => needle.isEmpty
  | c :: rest => startsWithL needle (c :: rest) || containsSubL rest needle

/-- `strings.Contains`. -/
def strContains (s sub : String) : Bool := containsSubL s.data sub.data

/-- If the first list is a literal prefix of the second, return the
remainder of the second. -/
def dropLit : List Char → List Char → Option (List Char)
  | [], rest => some rest
  | _ :: _, [] => none
  | a :: as, b :: bs => if a = b then dropLit as bs else none

/-- The lazy group `(.*?)'` of the fault regexp, applied at a position:
collect characters up to the first single quote, failing on a newline
(which `.` does not match) or on running out of input. -/
def scanTick : List Char → Option (List Char)
  | [] => none
  | c :: rest =>
    if c = quoteChar then some []
    else if c = nlChar then none
    else
      match scanTick rest with
      | some m => some (c :: m)
      | none => none

/-- Match the regexp `Fault (\d+): '(.*?)'` anchored at the head of the
list, returning the two capture groups (the digits and the message). -/
def matchFaultAt (l : List Char) : Option (List Char × List Char) :=
  match dropLit ("Fault ".data) l with
  | none => none
  | some r1 =>
    let ds := r1.takeWhile Char.isDigit
    let r2 := r1.dropWhile Char.isDigit
    if ds.isEmpty then none
    else
      match dropLit (": ".data ++ [quoteChar]) r2 with
      | none => none
      | some r3 =>
        match scanTick r3 with
        | none => none
        | some msg => some (ds, msg)

/-- `regexp.FindStringSubmatch` for `Fault (\d+): '(.*?)'`: the leftmost
position where the pattern matches wins. -/
def findFault : List Char → Option (List Char × List Char)
  | [] => none
  | a :: rest =>
    match matchFaultAt (a :: rest) with
    | some r => some r
    | none => findFault rest

/-- Numeric value of a digit string. -/
def digitsVal (l : List Char) : Nat :=
  l.foldl (fun acc c => acc * 10 + (c.toNat - 48)) 0

/-- `strconv.Atoi` restricted to the digit strings produced by the fault
regexp: the value, or `none` on 64-bit signed overflow (Go's range
error, in which case the caller keeps a zero fault code). -/
def goAtoi (l : List Char) : Option Int :=
  if digitsVal l ≤ 9223372036854775807 then some (Int.ofNat (digitsVal l)) else none

/-! ## The error classifier (errors.go) -/

/-- The literal prefix `"XML-RPC fault: "` tested by the classifier. -/
def xmlrpcFaultPre : String := "XML-RPC fault: "

/-- Lines 66-84 of errors.go: extract the numeric fault code and the
fault message from the raw error text.  If the fault regexp matches,
the code is the parsed first group and the message the second group;
otherwise, if the text starts with `"XML-RPC fault: "`, the message is
the text with that prefix trimmed; otherwise the message is the whole
text.  The code defaults to zero. -/
def extractFault (errMsg : String) : Int × String :=
  match findFault errMsg.data with
  | some (ds, msgCs) =>
    (match goAtoi ds with
     | some n => n
     | none => 0,
     String.mk msgCs)
  | none =>
    if startsWithL xmlrpcFaultPre.data errMsg.data then
      (0, String.mk (errMsg.data.drop xmlrpcFaultPre.data.length))
    else
      (0, errMsg)

/-- The message built by `fmt.Errorf("%w: %s (original: %w)", sentinel,
faultMessage, err)`. -/
def mkWrapMsg (sentinelMsg fm orig : String) : String :=
  sentinelMsg ++ ": " ++ fm ++ " (original: " ++ orig ++ ")"

/-- The invalid-model heuristic of errors.go (lines 91-94). -/
def isInvalidModelText (fm : String) : Bool :=
  strContains fm "The model does not exist" ||
  strContains fm "No model named" ||
  strContains fm "not found in registry" ||
  (strContains fm "'object' object has no attribute" && strContains fm "model")

/-- The invalid-method heuristic of errors.go (lines 99-101). -/
def isInvalidMethodText (fm : String) : Bool :=
  strContains fm "Object has no method" ||
  strContains fm "method does not exist" ||
  (strContains fm "missing 1 required positional argument" && strContains fm "self")

/-- `parseOdooRPCError` from errors.go: `nil` maps to `nil`; otherwise
the fault code and message are extracted from the error text, the
invalid-model heuristic is tried first, then the invalid-method
heuristic, and otherwise a generic `*OdooRPCError` carrying the original
error, the parsed code and the message is returned. -/
def parseOdooRPCError : Option GoError → Option GoError
  | none => none
  | some err =>
    let errMsg := errString err
    let fc := (extractFault errMsg).1
    let fm := (extractFault errMsg).2
    if isInvalidModelText fm then
      some (.wrap2 (mkWrapMsg (errString ErrInvalidModel) fm errMsg) ErrInvalidModel err)
    else if isInvalidMethodText fm then
      some (.wrap2 (mkWrapMsg (errString ErrInvalidMethod) fm errMsg) ErrInvalidMethod err)
    else
      some (.odooRPC err fc fm)

/-! ## Data model (types.go and client.go)

Go `interface{}` values occurring in RPC arguments and replies are
modelled by `RpcVal`.  The transport handle `*xmlrpc.Client` is modelled
by `RpcClient` (identified by the endpoint it is connected to); a nil
handle is `Option.none`.  Wall-clock instants and durations are `Int`
(nanoseconds, as in `time.Time` / `time.Duration` arithmetic).
-/

inductive RpcVal where
  | vStr (s : String)
  | vInt (n : Int)
  | vBool (b : Bool)
  | vList (xs : List RpcVal)
  | vMap (entries : List (String × RpcVal))

structure RpcClient where
  endpoint : String
deriving DecidableEq

/-- The session state of `OdooClient` (client.go): connection parameters,
the stored identity `uid`, the transport handle, the last-authentication
timestamp and the expiry duration.  The logger and the HTTP transport
configuration do not influence any claim and are omitted. -/
structure OdooClient where
  url : String
  db : String
  username : String
  password : String
  uid : Int
  rpcClient : Option RpcClient
  lastAuth : Int
  authTimeout : Int
deriving DecidableEq

/-- Result of one external interaction: a value or a Go error. -/
inductive RpcOutcome (α : Type) where
  | ok (v : α)
  | fail (e : GoError)
deriving DecidableEq

/-- The error component of an outcome, `none` on success. -/
def outcomeErr {α : Type} : RpcOutcome α → Option GoError
  | .ok _ => none
  | .fail e => some e

/-- Oracle for the external world during one client operation: the
current instant, whether the caller's context is done at each check
point, the context's error, the outcomes of the transport interactions
performed by `authenticate` (connecting to the common endpoint, the
`authenticate` RPC call, connecting to the object endpoint), which arm
of the `select` in the call executor fires first, and the outcome of the
blocking `execute_kw` call. -/
structure Env where
  now : Int
  ctxDone : Bool
  ctxErr : GoError
  commonConnect : Option GoError
  authUid : RpcOutcome Int
  ctxDoneAfterAuth : Bool
  objectConnect : Option GoError
  raceCtxFirst : Bool
  callResult : RpcOutcome RpcVal

/-- `isAuthValid` (client.go line 289-291): the stored identity is
non-null, the transport handle is non-null, and
`time.Since(c.lastAuth) < c.authTimeout`, where `time.Since(t)` is
`now - t`. -/
def isAuthValid (now : Int) (c : OdooClient) : Bool :=
  c.uid != 0 && c.rpcClient.isSome && decide (now - c.lastAuth < c.authTimeout)

/-- The fresh transport handle `authenticate` stores: an `xmlrpc.Client`
connected to `"<url>/xmlrpc/2/object"`. -/
def objectEndpoint (c : OdooClient) : RpcClient :=
  ⟨c.url ++ "/xmlrpc/2/object"⟩

/-- `authenticate` (client.go lines 166-286): bail out with the context's
error if the context is already done; connect to the common endpoint;
run the `authenticate` RPC call, turning a rejection into an error
wrapping `ErrAuthenticationFailed`; re-check the context; connect to the
object endpoint; on success store the new uid, the fresh object-endpoint
handle and the current instant, touching no session field on any failure
path. -/
def authenticate (e : Env) (c : OdooClient) : OdooClient × Option GoError :=
  if e.ctxDone then (c, some e.ctxErr)
  else
    match e.commonConnect with
    | some err =>
      (c, some (.wrap ("failed to connect to Odoo common endpoint: " ++ errString err) err))
    | none =>
      match e.authUid with
      | .fail err =>
        (c, some (.wrap (errString ErrAuthenticationFailed ++ ": " ++ errString err) ErrAuthenticationFailed))
      | .ok uid =>
        if e.ctxDoneAfterAuth then (c, some e.ctxErr)
        else
          match e.objectConnect with
          | some err =>
            (c, some (.wrap ("failed to connect to Odoo object endpoint: " ++ errString err) err))
          | none =>
            ({ c with uid := uid, rpcClient := some (objectEndpoint c), lastAuth := e.now }, none)

/-- `getConnection` (client.go lines 295-316): bail out with the
context's error if the context is done; if the session is valid return
the stored uid and transport handle unchanged; otherwise close and nil
the old handle and re-authenticate, returning the freshly stored uid and
handle on success. -/
def getConnection (e : Env) (c : OdooClient) :
    OdooClient × RpcOutcome (Int × Option RpcClient) :=
  if e.ctxDone then (c, .fail e.ctxErr)
  else if isAuthValid e.now c then (c, .ok (c.uid, c.rpcClient))
  else
    match authenticate e { c with rpcClient := none } with
    | (c2, some err) => (c2, .fail err)
    | (c2, none) => (c2, .ok (c2.uid, c2.rpcClient))

/-- The wrapping `executeRPC` and `CallOdoo` apply to a failed
`execute_kw` call before classification:
`fmt.Errorf("failed to call Odoo method ... on model ...: %w", err)`. -/
def rpcCallError (model method : String) (err : GoError) : GoError :=
  .wrap ("failed to call Odoo method '" ++ method ++ "' on model '" ++ model ++ "': " ++ errString err)
    err

/-- `parseOdooRPCError` applied to a (non-nil) error, as the call sites
use it. -/
def parseErr (e : GoError) : GoError :=
  match parseOdooRPCError (some e) with
  | some r => r
  | none => e

/-- `executeRPC` (crud.go lines 358-411): get a connection (possibly
re-authenticating), then run the blocking `execute_kw` call on its own
goroutine and `select` between the caller's context and the call: if the
context fires first its error is returned and the call's eventual result
is discarded; otherwise a failed call is wrapped and classified, and a
successful call's reply is returned.  The `args` and `options` arguments
are carried for interface fidelity; the oracle decides the reply. -/
def executeRPC (e : Env) (c : OdooClient) (model method : String)
    (_args : List RpcVal) (_options : List (String × RpcVal)) :
    OdooClient × RpcOutcome RpcVal :=
  match getConnection e c with
  | (c1, .fail err) => (c1, .fail err)
  | (c1, .ok _) =>
    if e.raceCtxFirst then (c1, .fail e.ctxErr)
    else
      match e.callResult with
      | .fail err => (c1, .fail (parseErr (rpcCallError model method err)))
      | .ok v => (c1, .ok v)

/-- `CallOdoo` (crud.go lines 951-1021): the custom-call entry point;
it repeats the connection step and the goroutine-with-select race of
`executeRPC` verbatim. -/
def CallOdoo (e : Env) (c : OdooClient) (model method : String)
    (_args : List RpcVal) (_options : List (String × RpcVal)) :
    OdooClient × RpcOutcome RpcVal :=
  match getConnection e c with
  | (c1, .fail err) => (c1, .fail err)
  | (c1, .ok _) =>
    if e.raceCtxFirst then (c1, .fail e.ctxErr)
    else
      match e.callResult with
      | .fail err => (c1, .fail (parseErr (rpcCallError model method err)))
      | .ok v => (c1, .ok v)

/-! ## CRUD helpers (crud.go)

Each helper returns the updated client, its Go results, and the number
of `executeRPC` invocations it performed (so that "without performing
any remote call" is an observable fact).  A Go nil slice result is
`none`; a non-nil (possibly empty) slice is `some`.
-/

/-- `Read` (crud.go lines 537-567): with an empty `ids` slice it returns
an empty non-nil slice and a nil error without calling `executeRPC`;
otherwise it performs one `read` call. -/
def Read (e : Env) (c : OdooClient) (model : String) (ids : List Int)
    (fields : List String) (opts : List (String × RpcVal)) :
    OdooClient × Option RpcVal × Option GoError × Nat :=
  if ids.isEmpty then (c, some (.vList []), none, 0)
  else
    match executeRPC e c model "read"
        [RpcVal.vList (ids.map RpcVal.vInt), RpcVal.vList (fields.map RpcVal.vStr)] opts with
    | (c1, .fail err) => (c1, none, some err, 1)
    | (c1, .ok v) => (c1, some v, none, 1)

/-- `ReadWithLimit` (crud.go lines 632-666): same empty-`ids` short
circuit as `Read`; a nil `options` pointer is replaced by an empty
`Options` value before the single `read` call. -/
def ReadWithLimit (e : Env) (c : OdooClient) (model : String) (ids : List Int)
    (fields : List String) (opts : Option (List (String × RpcVal))) :
    OdooClient × Option RpcVal × Option GoError × Nat :=
  if ids.isEmpty then (c, some (.vList []), none, 0)
  else
    match executeRPC e c model "read"
        [RpcVal.vList (ids.map RpcVal.vInt), RpcVal.vList (fields.map RpcVal.vStr)]
        (opts.getD []) with
    | (c1, .fail err) => (c1, none, some err, 1)
    | (c1, .ok v) => (c1, some v, none, 1)

/-- Unmarshalling of a boolean `write` / `unlink` reply. -/
def decodeBool : RpcVal → Bool
  | .vBool b => b
  | _ => false

/-- `Update` (crud.go lines 778-804): with an empty `ids` slice it
returns `false` and the error
`"godoo: no record IDs provided for update"` without calling
`executeRPC`; otherwise it performs one `write` call. -/
def Update (e : Env) (c : OdooClient) (model : String) (ids : List Int)
    (data : List (String × RpcVal)) (opts : List (String × RpcVal)) :
    OdooClient × Bool × Option GoError × Nat :=
  if ids.isEmpty then
    (c, false, some (.base "godoo: no record IDs provided for update"), 0)
  else
    match executeRPC e c model "write"
        [RpcVal.vList (ids.map RpcVal.vInt), RpcVal.vMap data] opts with
    | (c1, .fail err) => (c1, false, some err, 1)
    | (c1, .ok v) => (c1, decodeBool v, none, 1)

/-- `Delete` (crud.go lines 903-928): with an empty `ids` slice it
returns `false` and the error
`"godoo: no record IDs provided for deletion"` without calling
`executeRPC`; otherwise it performs one `unlink` call. -/
def Delete (e : Env) (c : OdooClient) (model : String) (ids : List Int)
    (opts : List (String × RpcVal)) :
    OdooClient × Bool × Option GoError × Nat :=
  if ids.isEmpty then
    (c, false, some (.base "godoo: no record IDs provided for deletion"), 0)
  else
    match executeRPC e c model "unlink" [RpcVal.vList (ids.map RpcVal.vInt)] opts with
    | (c1, .fail err) => (c1, false, some err, 1)
    | (c1, .ok v) => (c1, decodeBool v, none, 1)

/-- The positional arguments of the per-record `write` call issued by
`UpdateMultiple`: `[]interface{}{[]int64{recordID}, recordData.ToRPC()}`. -/
def writeArgs (id : Int) (data : List (String × RpcVal)) : List RpcVal :=
  [RpcVal.vList [RpcVal.vInt id], RpcVal.vMap data]

/-- The body of one fan-out task of `UpdateMultiple`: run the `write`
call for one record and report its id with the error, if any. -/
def updateTask (envOf : Int → Env) (c : OdooClient) (model : String)
    (opts : List (String × RpcVal)) (p : Int × List (String × RpcVal)) :
    Option (Int × GoError) :=
  match (executeRPC (envOf p.1) c model "write" (writeArgs p.1 p.2) opts).2 with
  | .fail err => some (p.1, err)
  | .ok _ => none

/-- `UpdateMultiple` (crud.go lines 833-890): with an empty map it
returns an empty non-nil result map and a nil error; otherwise it runs
one `write` task per record entry, waits for all of them, collects the
entries whose task failed, and finally — if the main context has
meanwhile been cancelled (`ctxErrAfter`) — discards the collected map
and returns a nil map with the context's error; otherwise it returns the
map of failures with a nil error.  Each record's task consults its own
oracle `envOf id`; a nil result map is `none`. -/
def UpdateMultiple (envOf : Int → Env) (ctxErrAfter : Option GoError)
    (c : OdooClient) (model : String)
    (idData : List (Int × List (String × RpcVal))) (opts : List (String × RpcVal)) :
    Option (List (Int × GoError)) × Option GoError :=
  if idData.isEmpty then (some [], none)
  else
    let failed := idData.filterMap (updateTask envOf c model opts)
    match ctxErrAfter with
    | some err => (none, some err)
    | none => (some failed, none)

/-! ## Domains (types.go) -/

/-- A `DomainCondition` is `[]interface{}`. -/
def DomainCondition := List RpcVal

/-- A `Domain` is a `[]DomainCondition`; `none` is a Go nil slice. -/
def Domain := Option (List DomainCondition)

/-- Go `append` on a possibly-nil slice: appending to nil yields a
non-nil one-element slice. -/
def goSliceAppend {α : Type} (s : Option (List α)) (x : α) : Option (List α) :=
  match s with
  | none => some [x]
  | some xs => some (xs ++ [x])

/-- `Domain.ToRPC` (types.go lines 89-118): a nil domain maps to an
explicit empty non-nil list; otherwise each condition is visited in
order, a single-element condition whose element is a string is appended
as that bare string, and every other condition is appended unchanged;
the accumulator starts as a nil slice. -/
def Domain.ToRPC (d : Domain) : Option (List RpcVal) :=
  match d with
  | none => some []
  | some conds =>
    conds.foldl
      (fun acc cond =>
        match cond with
        | [RpcVal.vStr op] => goSliceAppend acc (RpcVal.vStr op)
        | _ => goSliceAppend acc (RpcVal.vList cond))
      none

/-- The elements of a possibly-nil Go slice (a nil slice has none). -/
def sliceElems {α : Type} (s : Option (List α)) : List α := s.getD []

/-- The element a single domain condition contributes to the RPC domain:
a bare string for a one-element string condition, the condition itself
(as a slice) otherwise. -/
def condElem (cond : DomainCondition) : RpcVal :=
  match cond with
  | [RpcVal.vStr op] => RpcVal.vStr op
  | _ => RpcVal.vList cond

/-! ## Concrete inputs used by witnesses and counterexamples -/

/-- The error a cancelled Go context reports. -/
def ctxCanceled : GoError := .base "context canceled"

/-- A client with a currently valid session: non-zero uid, a live
transport handle, freshly authenticated. -/
def cOk : OdooClient :=
  { url := "http://odoo", db := "db", username := "u", password := "p",
    uid := 1, rpcClient := some ⟨"h"⟩, lastAuth := 0, authTimeout := 1 }

/-- The same client before any authentication (uid zero). -/
def cStale : OdooClient := { cOk with uid := 0, rpcClient := none }

/-- A benign environment: context live, every transport interaction
succeeds, the remote call wins the race and replies `true`. -/
def envOk : Env :=
  { now := 0, ctxDone := false, ctxErr := ctxCanceled, commonConnect := none,
    authUid := .ok 7, ctxDoneAfterAuth := false, objectConnect := none,
    raceCtxFirst := false, callResult := .ok (.vBool true) }

/-- The benign environment with the context already cancelled on entry. -/
def envCtr : Env := { envOk with ctxDone := true }

/-- The benign environment with the remote credential check rejecting
the login. -/
def envAuthFail : Env := { envOk with authUid := .fail (.base "Access Denied") }

/-! ## Helper lemmas -/

theorem strData_append (s t : String) : (s ++ t).data = s.data ++ t.data := rfl

theorem startsWith_append_self (n q : List Char) : startsWithL n (n ++ q) = true := by
  induction n with
  | nil => rfl
  | cons a as ih => simp [startsWithL, ih]

theorem containsSub_startsHere (n q : List Char) : containsSubL (n ++ q) n = true := by
  cases n with
  | nil =>
    cases q with
    | nil => rfl
    | cons c cs => simp [containsSubL, startsWithL]
  | cons a as =>
    simp only [List.cons_append, containsSubL, Bool.or_eq_true]
    exact Or.inl (by simp [startsWithL, startsWith_append_self])

theorem containsSub_appendLeft (p t n : List Char) (h : containsSubL t n = true) :
    containsSubL (p ++ t) n = true := by
  induction p with
  | nil => simpa using h
  | cons c p ih => simp [containsSubL, ih]

theorem strContains_mkWrapMsg_mid (s fm o : String) :
    strContains (mkWrapMsg s fm o) fm = true := by
  show containsSubL (mkWrapMsg s fm o).data fm.data = true
  simp only [mkWrapMsg, strData_append, List.append_assoc]
  exact containsSub_appendLeft _ _ _ (containsSub_appendLeft _ _ _ (containsSub_startsHere _ _))

theorem strContains_mkWrapMsg_orig (s fm o : String) :
    strContains (mkWrapMsg s fm o) o = true := by
  show containsSubL (mkWrapMsg s fm o).data o.data = true
  simp only [mkWrapMsg, strData_append, List.append_assoc]
  exact containsSub_appendLeft _ _ _ (containsSub_appendLeft _ _ _
    (containsSub_appendLeft _ _ _ (containsSub_appendLeft _ _ _ (containsSub_startsHere _ _))))

theorem errString_odooRPC (o : GoError) (code : Int) (m : String) :
    errString (.odooRPC o code m) = mkWrapMsg errOdooRPCMsg m (errString o) := rfl

theorem errorsIs_self (a : GoError) : errorsIs a a = true := by
  unfold errorsIs
  simp

theorem errorsIs_wrap_inner (m : String) (a : GoError) :
    errorsIs (.wrap m a) a = true := by
  unfold errorsIs
  split
  · rfl
  · show errorsIs a a = true
    exact errorsIs_self a

theorem errorsIs_wrap2_left (m : String) (a b : GoError) :
    errorsIs (.wrap2 m a b) a = true := by
  unfold errorsIs
  split
  · rfl
  · show (errorsIs a a || errorsIs b a) = true
    simp [errorsIs_self]

theorem elems_goSliceAppend {α : Type} (s : Option (List α)) (x : α) :
    sliceElems (goSliceAppend s x) = sliceElems s ++ [x] := by
  cases s <;> rfl

theorem domainStep_eq (acc : Option (List RpcVal)) (cond : DomainCondition) :
    (match cond with
     | [RpcVal.vStr op] => goSliceAppend acc (RpcVal.vStr op)
     | _ => goSliceAppend acc (RpcVal.vList cond)) = goSliceAppend acc (condElem cond) := by
  unfold condElem
  cases cond with
  | nil => rfl
  | cons h t =>
    cases t with
    | nil => cases h <;> rfl
    | cons h2 t2 => cases h <;> rfl

theorem domain_foldl_elems (conds : List DomainCondition) (acc : Option (List RpcVal)) :
    sliceElems (conds.foldl
      (fun acc cond =>
        match cond with
        | [RpcVal.vStr op] => goSliceAppend acc (RpcVal.vStr op)
        | _ => goSliceAppend acc (RpcVal.vList cond)) acc) =
    sliceElems acc ++ conds.map condElem := by
  induction conds generalizing acc with
  | nil => simp
  | cons h t ih =>
    rw [List.foldl_cons, ih, domainStep_eq, elems_goSliceAppend]
    simp

/-! ## Claims -/

/-- C1: the session validity predicate `isAuthValid` holds if and only
if the stored identity is non-null (`uid != 0`), the transport handle is
non-null (`rpcClient != nil`), and the time elapsed since
last-authenticated-at is strictly less than the expiry duration
(`time.Since(lastAuth) < authTimeout`). -/
theorem isAuthValid_iff (now : Int) (c : OdooClient) :
    isAuthValid now c = true ↔
      (c.uid ≠ 0 ∧ c.rpcClient ≠ none ∧ now - c.lastAuth < c.authTimeout) := by
  simp [isAuthValid, Option.isSome_iff_ne_none, and_assoc]

/-- C2 (counterexample to the claim as stated): with the caller's
context already cancelled, `getConnection` returns the context's error
even though the session is valid, instead of the stored uid and
transport handle. -/
theorem getConnection_ctx_ctr :
    isAuthValid envCtr.now cOk = true ∧
    getConnection envCtr cOk = (cOk, .fail ctxCanceled) :=
  ⟨rfl, rfl⟩

/-- C2 (amended: provided the caller's context is not already
cancelled): if the session is valid, `getConnection` returns the stored
uid and transport handle with the client unchanged, consulting none of
the authentication oracles; if the session is absent or expired and
authentication succeeds, the client stores the new uid, a fresh
transport handle connected to the object endpoint, and the current
instant as last-authenticated-at, and returns that uid and handle. -/
theorem getConnection_amended (e : Env) (c : OdooClient) :
    (e.ctxDone = false → isAuthValid e.now c = true →
      getConnection e c = (c, .ok (c.uid, c.rpcClient))) ∧
    (e.ctxDone = false → isAuthValid e.now c = false →
     e.commonConnect = none → e.ctxDoneAfterAuth = false → e.objectConnect = none →
     ∀ u : Int, e.authUid = .ok u →
      getConnection e c =
        ({ c with uid := u, rpcClient := some (objectEndpoint c), lastAuth := e.now },
         .ok (u, some (objectEndpoint c)))) := by
  constructor
  · intro h1 h2
    simp [getConnection, h1, h2]
  · intro h1 h2 h3 h4 h5 u h6
    simp [getConnection, authenticate, objectEndpoint, h1, h2, h3, h4, h5, h6]

/-- C2 witness: the amended theorem applied to a valid session and to a
stale session whose re-authentication yields uid 7. -/
theorem getConnection_amended_witness :
    getConnection envOk cOk = (cOk, .ok (cOk.uid, cOk.rpcClient)) ∧
    getConnection envOk cStale =
      ({ cStale with uid := 7, rpcClient := some (objectEndpoint cStale), lastAuth := envOk.now },
       .ok (7, some (objectEndpoint cStale))) :=
  ⟨(getConnection_amended envOk cOk).1 rfl rfl,
   (getConnection_amended envOk cStale).2 rfl rfl rfl rfl rfl 7 rfl⟩

/-- C3: when the remote credential check rejects the login,
`authenticate` returns an error wrapping `ErrAuthenticationFailed`
(in the `errors.Is` sense) and leaves every session field of the client
untouched. -/
theorem authenticate_reject_wraps_authFailed (e : Env) (c : OdooClient) (err : GoError)
    (h1 : e.ctxDone = false) (h2 : e.commonConnect = none) (h3 : e.authUid = .fail err) :
    (authenticate e c).1 = c ∧
    ∃ r, (authenticate e c).2 = some r ∧ errorsIs r ErrAuthenticationFailed = true := by
  refine ⟨by simp [authenticate, h1, h2, h3], ?_⟩
  refine ⟨GoError.wrap (errString ErrAuthenticationFailed ++ ": " ++ errString err)
    ErrAuthenticationFailed, ?_, ?_⟩
  · simp [authenticate, h1, h2, h3]
  · exact errorsIs_wrap_inner _ _

/-- C3 witness: the rejection theorem at a concrete environment. -/
theorem authenticate_reject_witness :
    (authenticate envAuthFail cStale).1 = cStale ∧
    ∃ r, (authenticate envAuthFail cStale).2 = some r ∧
      errorsIs r ErrAuthenticationFailed = true :=
  authenticate_reject_wraps_authFailed envAuthFail cStale (.base "Access Denied") rfl rfl rfl

/-- C4: once a connection is obtained, both `executeRPC` and `CallOdoo`
race the blocking remote call against the caller's cancellation watch:
if the cancellation signal fires first the context's error is returned
and the remote call's result is discarded (the outcome does not depend
on it); if the remote call completes first, its reply, or its error
wrapped and classified by the error classifier, is returned. -/
theorem rpc_race_semantics (e : Env) (c : OdooClient) (model method : String)
    (args : List RpcVal) (opts : List (String × RpcVal)) (u : Int) (rc : Option RpcClient)
    (h : (getConnection e c).2 = .ok (u, rc)) :
    executeRPC e c model method args opts =
      ((getConnection e c).1,
       if e.raceCtxFirst then .fail e.ctxErr
       else
         match e.callResult with
         | .fail err => .fail (parseErr (rpcCallError model method err))
         | .ok v => .ok v) ∧
    CallOdoo e c model method args opts =
      ((getConnection e c).1,
       if e.raceCtxFirst then .fail e.ctxErr
       else
         match e.callResult with
         | .fail err => .fail (parseErr (rpcCallError model method err))
         | .ok v => .ok v) := by
  have hg : getConnection e c = ((getConnection e c).1, .ok (u, rc)) := by
    rw [← h]
  constructor
  · unfold executeRPC
    rw [hg]
    cases hb : e.raceCtxFirst <;> cases hc : e.callResult <;> simp [hb, hc]
  · unfold CallOdoo
    rw [hg]
    cases hb : e.raceCtxFirst <;> cases hc : e.callResult <;> simp [hb, hc]

/-- C4 witness: the race theorem at a concrete valid-session input. -/
theorem rpc_race_witness :
    executeRPC envOk cOk "res.partner" "read" [] [] =
      ((getConnection envOk cOk).1,
       if envOk.raceCtxFirst then .fail envOk.ctxErr
       else
         match envOk.callResult with
         | .fail err => .fail (parseErr (rpcCallError "res.partner" "read" err))
         | .ok v => .ok v) ∧
    CallOdoo envOk cOk "res.partner" "read" [] [] =
      ((getConnection envOk cOk).1,
       if envOk.raceCtxFirst then .fail envOk.ctxErr
       else
         match envOk.callResult with
         | .fail err => .fail (parseErr (rpcCallError "res.partner" "read" err))
         | .ok v => .ok v) :=
  rpc_race_semantics envOk cOk "res.partner" "read" [] [] 1 (some ⟨"h"⟩) rfl

/-- C5: for every non-nil input error, `parseOdooRPCError` buckets the
fault by substring matching on the extracted fault message: any
invalid-model phrase yields an error wrapping `ErrInvalidModel`,
otherwise any invalid-method phrase yields an error wrapping
`ErrInvalidMethod`, and otherwise a generic `OdooRPCError` is returned;
the invalid-model check takes precedence.  The two trailing conjuncts
show the two wrapped shapes do satisfy `errors.Is` for their sentinel. -/
theorem parse_classification (err : GoError) :
    parseOdooRPCError (some err) =
      (if strContains (extractFault (errString err)).2 "The model does not exist" ||
          strContains (extractFault (errString err)).2 "No model named" ||
          strContains (extractFault (errString err)).2 "not found in registry" ||
          (strContains (extractFault (errString err)).2 "'object' object has no attribute" &&
           strContains (extractFault (errString err)).2 "model") then
        some (GoError.wrap2
          (mkWrapMsg (errString ErrInvalidModel) (extractFault (errString err)).2 (errString err))
          ErrInvalidModel err)
      else if strContains (extractFault (errString err)).2 "Object has no method" ||
          strContains (extractFault (errString err)).2 "method does not exist" ||
          (strContains (extractFault (errString err)).2 "missing 1 required positional argument" &&
           strContains (extractFault (errString err)).2 "self") then
        some (GoError.wrap2
          (mkWrapMsg (errString ErrInvalidMethod) (extractFault (errString err)).2 (errString err))
          ErrInvalidMethod err)
      else
        some (GoError.odooRPC err (extractFault (errString err)).1 (extractFault (errString err)).2)) ∧
    errorsIs (GoError.wrap2
        (mkWrapMsg (errString ErrInvalidModel) (extractFault (errString err)).2 (errString err))
        ErrInvalidModel err) ErrInvalidModel = true ∧
    errorsIs (GoError.wrap2
        (mkWrapMsg (errString ErrInvalidMethod) (extractFault (errString err)).2 (errString err))
        ErrInvalidMethod err) ErrInvalidMethod = true :=
  ⟨rfl, errorsIs_wrap2_left _ _ _, errorsIs_wrap2_left _ _ _⟩

/-- C6: for every non-nil fault, the classified error preserves the
extracted fault message and the full original error text as substrings
of its own message, in all three buckets; outside the invalid-model and
invalid-method buckets the result is exactly the generic `OdooRPCError`
carrying the original error, the parsed numeric fault code and the
extracted message. -/
theorem parse_preserves_message (err : GoError) :
    match parseOdooRPCError (some err) with
    | some r =>
      strContains (errString r) (extractFault (errString err)).2 = true ∧
      strContains (errString r) (errString err) = true ∧
      (if isInvalidModelText (extractFault (errString err)).2 ||
          isInvalidMethodText (extractFault (errString err)).2 then True
       else r = GoError.odooRPC err (extractFault (errString err)).1 (extractFault (errString err)).2)
    | none => False := by
  unfold parseOdooRPCError
  cases hA : isInvalidModelText (extractFault (errString err)).2 with
  | true =>
    simp only [hA, if_true, Bool.true_or, if_pos]
    exact ⟨strContains_mkWrapMsg_mid _ _ _, strContains_mkWrapMsg_orig _ _ _, trivial⟩
  | false =>
    cases hB : isInvalidMethodText (extractFault (errString err)).2 with
    | true =>
      simp only [hA, hB, if_true, if_false, Bool.false_or]
      exact ⟨strContains_mkWrapMsg_mid _ _ _, strContains_mkWrapMsg_orig _ _ _, trivial⟩
    | false =>
      simp only [hA, hB, if_false, Bool.false_or]
      refine ⟨?_, ?_, rfl⟩
      · rw [errString_odooRPC]
        exact strContains_mkWrapMsg_mid _ _ _
      · rw [errString_odooRPC]
        exact strContains_mkWrapMsg_orig _ _ _

/-- C7 (counterexample to the claim as stated): with the main context
cancelled when the fan-out finishes, `UpdateMultiple` on a non-empty map
whose one individual update succeeded returns a nil mapping and the
context's error, not a per-record result mapping. -/
theorem updateMultiple_ctx_ctr :
    outcomeErr (executeRPC envOk cOk "res.partner" "write" (writeArgs 1 []) []).2 = none ∧
    UpdateMultiple (fun _ => envOk) (some ctxCanceled) cOk "res.partner" [(1, [])] [] =
      (none, some ctxCanceled) :=
  ⟨rfl, rfl⟩

/-- C7 (amended: provided the main context is not cancelled when the
fan-out finishes): `UpdateMultiple` on an empty map returns an empty
non-nil mapping and a nil error; otherwise it returns, with a nil
error, a mapping containing exactly the records whose individual update
failed, each mapped to its error. -/
theorem updateMultiple_amended (envOf : Int → Env) (cE : Option GoError)
    (c : OdooClient) (model : String)
    (idData : List (Int × List (String × RpcVal))) (opts : List (String × RpcVal))
    (id : Int) (err : GoError) :
    UpdateMultiple envOf cE c model [] opts = (some [], none) ∧
    ∃ failed, UpdateMultiple envOf none c model idData opts = (some failed, none) ∧
      ((id, err) ∈ failed ↔
        ∃ d, (id, d) ∈ idData ∧
          (executeRPC (envOf id) c model "write" (writeArgs id d) opts).2 = .fail err) := by
  refine ⟨rfl, idData.filterMap (updateTask envOf c model opts), ?_, ?_⟩
  · cases idData with
    | nil => rfl
    | cons h t => rfl
  · rw [List.mem_filterMap]
    constructor
    · rintro ⟨⟨i, d⟩, hm, hf⟩
      unfold updateTask at hf
      rcases ho : (executeRPC (envOf i) c model "write" (writeArgs i d) opts).2 with v | e2
      · rw [ho] at hf
        simp at hf
      · rw [ho] at hf
        simp at hf
        obtain ⟨hi, he⟩ := hf
        subst hi
        subst he
        exact ⟨d, hm, ho⟩
    · rintro ⟨d, hm, hf⟩
      refine ⟨(id, d), hm, ?_⟩
      unfold updateTask
      rw [hf]

/-- C8: `parseOdooRPCError` maps nil to nil and every non-nil error to a
non-nil error. -/
theorem parse_total :
    parseOdooRPCError none = none ∧
    ∀ err : GoError, (parseOdooRPCError (some err)).isSome = true := by
  refine ⟨rfl, fun err => ?_⟩
  cases hA : isInvalidModelText (extractFault (errString err)).2 <;>
    cases hB : isInvalidMethodText (extractFault (errString err)).2 <;>
      simp [parseOdooRPCError, hA, hB]

/-- C9: `Domain.ToRPC` maps a nil domain to an empty non-nil list, and
on a non-nil domain produces exactly one element per input condition, in
order: a single-element condition whose element is a string is flattened
to the bare string, and every other condition is kept unchanged (as a
slice); consequently the output length equals the input length. -/
theorem domainToRPC_spec :
    Domain.ToRPC none = some [] ∧
    (∀ conds : List DomainCondition,
      sliceElems (Domain.ToRPC (some conds)) =
        conds.map (fun cond =>
          match cond with
          | [RpcVal.vStr op] => RpcVal.vStr op
          | _ => RpcVal.vList cond)) ∧
    (∀ conds : List DomainCondition,
      (sliceElems (Domain.ToRPC (some conds))).length = conds.length) := by
  have hmap : ∀ conds : List DomainCondition,
      sliceElems (Domain.ToRPC (some conds)) = conds.map condElem := by
    intro conds
    unfold Domain.ToRPC
    rw [domain_foldl_elems]
    rfl
  refine ⟨rfl, fun conds => ?_, fun conds => ?_⟩
  · rw [hmap]
    rfl
  · rw [hmap]
    exact List.length_map _ _

/-- C10: empty-ID handling at the public interface is asymmetric: with
an empty `ids` slice, `Read` and `ReadWithLimit` return an empty
non-nil slice and a nil error without performing any remote call, while
`Update` and `Delete` return `false` and a non-nil error without
performing any remote call. -/
theorem emptyIds_asymmetry (e : Env) (c : OdooClient) (model : String)
    (fields : List String) (data : List (String × RpcVal))
    (opts : List (String × RpcVal)) (owl : Option (List (String × RpcVal))) :
    Read e c model [] fields opts = (c, some (.vList []), none, 0) ∧
    ReadWithLimit e c model [] fields owl = (c, some (.vList []), none, 0) ∧
    Update e c model [] data opts =
      (c, false, some (.base "godoo: no record IDs provided for update"), 0) ∧
    Delete e c model [] opts =
      (c, false, some (.base "godoo: no record IDs provided for deletion"), 0) :=
  ⟨rfl, rfl, rfl, rfl⟩

end Godoo
